import Mathlib

/-!
Verification of the Series Codex CLI (src/newfile.py) against its
natural-language specification.  The Python program is shallowly embedded:
the JSON document it mutates becomes a Lean structure `Doc`, each menu
operation that the claims mention becomes a pure Lean function on `Doc`
(user input and the wall clock become explicit arguments), and Python
library primitives used by the program (`str.lower`, `in`, `str.strip`,
`str.isdigit`, `int`, `" ".join`, decimal formatting of integers in
f-strings) are modelled as executable Lean functions on `String`.
-/

namespace SeriesCodex

/-! ## Python string primitives -/

/-- Model of Python `str.lower()` (ASCII range, which is all the program's
fixed keywords use). -/
def pyLower (s : String) : String := String.mk (s.data.map Char.toLower)

/-- `pfx n h`: `n` is a leading segment of `h` (helper for the substring
test below). -/
def pfx : List Char → List Char → Bool
  | [], _ => true
  | _ :: _, [] => false
  | a :: as, b :: bs => a == b && pfx as bs

/-- `subList n h`: `n` occurs contiguously inside `h`. -/
def subList (n : List Char) : List Char → Bool
  | [] => n.isEmpty
  | c :: rest => pfx n (c :: rest) || subList n rest

/-- Model of Python's substring operator `needle in hay`. -/
def pyIn (needle hay : String) : Bool := subList needle.data hay.data

/-- Model of Python `str.strip()` (whitespace at both ends removed). -/
def pyStrip (s : String) : String :=
  String.mk (((s.data.dropWhile Char.isWhitespace).reverse.dropWhile Char.isWhitespace).reverse)

/-- Model of Python `str.isdigit()` for ASCII input: nonempty and all
characters are decimal digits. -/
def pyIsDigit (s : String) : Bool := !s.data.isEmpty && s.data.all Char.isDigit

/-- Numeric value of a string of decimal digits: what Python `int(s)`
returns on a string for which `s.isdigit()` holds. -/
def pyDigitsVal (s : String) : Nat :=
  s.data.foldl (fun a c => a * 10 + (c.toNat - 48)) 0

/-- Model of Python `int(s)` as a partial function: an optional sign
followed by at least one decimal digit (surrounding whitespace stripped),
`none` when `int` would raise `ValueError`. -/
def pyIntParse? (s : String) : Option Int :=
  let t := pyStrip s
  match t.data with
  | '-' :: ds =>
      if ds ≠ [] ∧ ds.all Char.isDigit then some (-(pyDigitsVal (String.mk ds) : Int)) else none
  | '+' :: ds =>
      if ds ≠ [] ∧ ds.all Char.isDigit then some (pyDigitsVal (String.mk ds) : Int) else none
  | ds =>
      if ds ≠ [] ∧ ds.all Char.isDigit then some (pyDigitsVal (String.mk ds) : Int) else none

/-- Model of Python `sep.join(parts)`. -/
def pyJoin (sep : String) : List String → String
  | [] => ""
  | [x] => x
  | x :: y :: xs => x ++ sep ++ pyJoin sep (y :: xs)

/-- Little helper: the decimal digits of `n`, most significant first,
computed with explicit fuel so that it is structurally recursive. -/
def natToDigits (fuel n : Nat) : List Nat :=
  match fuel with
  | 0 => []
  | f + 1 => if n < 10 then [n] else natToDigits f (n / 10) ++ [n % 10]

/-- Decimal rendering of a natural number: what a Python f-string prints
for an `int`. -/
def natRepr (n : Nat) : String := String.mk ((natToDigits n n).map Nat.digitChar)

/-- Python `repr` of a list of (quote-free) strings, as an f-string
formats it: `[` … `]` with elements quoted and comma-separated. -/
def pyReprStrList (l : List String) : String :=
  let q := String.singleton (Char.ofNat 39)
  "[" ++ pyJoin ", " (l.map (fun s => q ++ s ++ q)) ++ "]"

/-! ## The data model (§3 of the spec, shapes taken from the dicts the
program builds in `load_data`, `create_book`, `create_master_character`,
`manage_master_locations`, `manage_master_lore`,
`manage_master_timeline`). -/

/-- `data["meta"]`. -/
structure MetaInfo where
  created_at : String
deriving DecidableEq

/-- `data["series"]` when not `None` (built in `edit_series_overview`). -/
structure SeriesInfo where
  title : String
  genre : String
  logline : String
  planned_books : Option Int
  interconnection_style : String
  protagonist_overall_arc : String
  updated_at : String
deriving DecidableEq

/-- A value of `book["book_char_profiles"]` (role-in-book, notes). -/
structure BookProfile where
  role_in_book : String
  notes : String
deriving DecidableEq

/-- A book-local timeline event `{when, desc}`. -/
structure BookEvent where
  when : String
  desc : String
deriving DecidableEq

/-- One element of `data["books"]` (built in `create_book`).  The
`book_char_profiles` dict becomes an association list in insertion order,
mirroring Python's insertion-ordered dicts. -/
structure Book where
  id : String
  title : String
  number : Option Int
  logline : String
  planned_length : Option Int
  plot_outline : List String
  characters : List String
  book_char_profiles : List (String × BookProfile)
  timeline : List BookEvent
  themes : List String
  created_at : String
deriving DecidableEq

/-- One element of `data["master"]["characters"]`. -/
structure MChar where
  id : String
  name : String
  role : String
  personality : String
  personality_analysis : String
  series_arc : String
  notes : String
  created_at : String
deriving DecidableEq

/-- One element of `data["master"]["locations"]`. -/
structure MLoc where
  id : String
  name : String
  brief : String
  evolution : String
  created_at : String
deriving DecidableEq

/-- One element of `data["master"]["lore"]`. -/
structure MLore where
  id : String
  title : String
  summary : String
  created_at : String
deriving DecidableEq

/-- `data["master"]`. -/
structure MasterData where
  characters : List MChar
  locations : List MLoc
  lore : List MLore
deriving DecidableEq

/-- One element of `data["timeline"]` (master timeline):
`{when, desc, book_id}` with an optional book id. -/
structure MEvent where
  when : String
  desc : String
  book_id : Option String
deriving DecidableEq

/-- The whole persisted JSON document. -/
structure Doc where
  meta : MetaInfo
  series : Option SeriesInfo
  books : List Book
  master : MasterData
  timeline : List MEvent
deriving DecidableEq

/-- The default document `load_data` builds when no data file exists; the
creation timestamp string is an explicit argument (wall clock made
explicit). -/
def default_doc (nowIso : String) : Doc :=
  { meta := { created_at := nowIso }
    series := none
    books := []
    master := { characters := [], locations := [], lore := [] }
    timeline := [] }

/-- The wall clock at the moment an operation runs: `ts` models
`int(datetime.utcnow().timestamp())` and `iso` models
`datetime.utcnow().isoformat()`. -/
structure Clock where
  ts : Nat
  iso : String
deriving DecidableEq

/-! ## Personality analyzer (`analyze_personality_text`, lines 75–95) -/

def conscientiousnessSentence : String :=
  "High conscientiousness — likely reliable, structured, and plan-driven."

def highAgreeablenessSentence : String :=
  "High agreeableness — likely cooperative and empathetic."

def lowAgreeablenessSentence : String :=
  "Low agreeableness — may be blunt or confrontational."

def opennessSentence : String :=
  "High openness — imaginative and curious; likely to pursue novel choices."

def sensitivitySentence : String :=
  "Emotional sensitivity — may react strongly under stress."

def outgoingSentence : String :=
  "Outgoing — gains energy from others, socially proactive."

def reservedSentence : String :=
  "Reserved — internal processing, may prefer solitude or a small circle."

def noSignalSentence : String :=
  "No strong signals detected from input; personality summary unavailable."

/-- `analyze_personality_text`: lower-case the input, append one fixed
sentence per matching keyword set (checks in source order, independent and
non-exclusive), join with single spaces, fixed message when nothing
matched. -/
def analyze_personality_text (personality_text : String) : String :=
  let t := pyLower personality_text
  let traits : List String :=
    (if pyIn "conscientious" t || pyIn "conscientiousness" t || pyIn "organized" t then
      [conscientiousnessSentence] else []) ++
    (if pyIn "agreeable" t || pyIn "kind" t || pyIn "friendly" t then
      [highAgreeablenessSentence] else []) ++
    (if pyIn "low agree" t || pyIn "not agreeable" t || pyIn "blunt" t then
      [lowAgreeablenessSentence] else []) ++
    (if pyIn "open" t || pyIn "curious" t || pyIn "creative" t then
      [opennessSentence] else []) ++
    (if pyIn "neurotic" t || pyIn "anxious" t || pyIn "sensitive" t then
      [sensitivitySentence] else []) ++
    (if pyIn "extro" t || pyIn "outgoing" t || pyIn "social" t then
      [outgoingSentence] else []) ++
    (if pyIn "intro" t || pyIn "quiet" t || pyIn "reserved" t then
      [reservedSentence] else [])
  if traits = [] then noSignalSentence else pyJoin " " traits

/-! ## Master Codex create and delete operations -/

/-- The interactively gathered inputs of `create_master_character`. -/
structure CharFields where
  name : String
  role : String
  personality : String
  series_arc : String
  notes : String
deriving DecidableEq

/-- `create_master_character` (lines 377–397): generate
`char_{len+1}_{timestamp}`, derive the personality analysis, append to the
master character collection. -/
def create_master_character (d : Doc) (f : CharFields) (clk : Clock) : Doc :=
  let personality := pyStrip f.personality
  let cid := "char_" ++ natRepr (d.master.characters.length + 1) ++ "_" ++ natRepr clk.ts
  let character : MChar :=
    { id := cid
      name := pyStrip f.name
      role := pyStrip f.role
      personality := personality
      personality_analysis := analyze_personality_text personality
      series_arc := pyStrip f.series_arc
      notes := pyStrip f.notes
      created_at := clk.iso }
  { d with master := { d.master with characters := d.master.characters ++ [character] } }

/-- The interactively gathered inputs of the location-create branch. -/
structure LocFields where
  name : String
  brief : String
  evolution : String
deriving DecidableEq

/-- `manage_master_locations`, branch "2" (lines 472–485): generate
`loc_{len+1}_{timestamp}` and append. -/
def create_master_location (d : Doc) (f : LocFields) (clk : Clock) : Doc :=
  let lid := "loc_" ++ natRepr (d.master.locations.length + 1) ++ "_" ++ natRepr clk.ts
  let loc : MLoc :=
    { id := lid
      name := pyStrip f.name
      brief := pyStrip f.brief
      evolution := pyStrip f.evolution
      created_at := clk.iso }
  { d with master := { d.master with locations := d.master.locations ++ [loc] } }

/-- The interactively gathered inputs of the lore-create branch. -/
structure LoreFields where
  title : String
  summary : String
deriving DecidableEq

/-- `manage_master_lore`, branch "2" (lines 527–533): generate
`lore_{len+1}_{timestamp}` and append. -/
def create_master_lore (d : Doc) (f : LoreFields) (clk : Clock) : Doc :=
  let lid := "lore_" ++ natRepr (d.master.lore.length + 1) ++ "_" ++ natRepr clk.ts
  let entry : MLore :=
    { id := lid
      title := pyStrip f.title
      summary := pyStrip f.summary
      created_at := clk.iso }
  { d with master := { d.master with lore := d.master.lore ++ [entry] } }

/-- `manage_book_characters`, branch "3" ("Create new master character and
add it", lines 311–313): the code runs `create_master_character(data)`
followed by `save_data(data)` and nothing else — the selected book is not
touched.  The book index is a parameter because the menu is reached with a
book selected, but the source never uses it. -/
def create_and_add_book_character (d : Doc) (_bookIdx : Nat) (f : CharFields)
    (clk : Clock) : Doc :=
  create_master_character d f clk

/-- The per-book part of the character-deletion cascade (lines 445–448):
if the book references the deleted id, remove that reference
(`list.remove`: first occurrence) and drop the profile entry
(`dict.pop(cid, None)`: the binding with that key, modelled on the
association list by keeping every pair with a different key). -/
def remove_char_from_book (cid : String) (b : Book) : Book :=
  if cid ∈ b.characters then
    { b with
      characters := b.characters.erase cid
      book_char_profiles := b.book_char_profiles.filter (fun kv => kv.1 != cid) }
  else b

/-- `manage_master_characters`, branch "4" (lines 438–450): pop the
selected master character and cascade over every book.  An out-of-range
index cannot be selected through `choose_from_list`; the model leaves the
document unchanged in that case. -/
def delete_master_character (d : Doc) (idx : Nat) : Doc :=
  match d.master.characters[idx]? with
  | none => d
  | some c =>
    { d with
      master := { d.master with characters := d.master.characters.eraseIdx idx }
      books := d.books.map (remove_char_from_book c.id) }

/-! ## Book basic-info editing (`edit_book_basic_info`, lines 267–275) -/

/-- `edit_book_basic_info`: `input or previous` keeps the previous value
exactly on empty input; the number is replaced only when the raw input
satisfies `str.isdigit`. -/
def edit_book_basic_info (b : Book) (titleIn numIn loglineIn : String) : Book :=
  { b with
    title := if titleIn = "" then b.title else titleIn
    number := if pyIsDigit numIn then some (pyDigitsVal numIn : Int) else b.number
    logline := if loglineIn = "" then b.logline else loglineIn }

/-! ## Continuity check (`continuity_check`, lines 640–666) -/

/-- A single apostrophe, kept out of string literals. -/
def apos : String := String.singleton (Char.ofNat 39)

def missingRefMsg (title cid : String) : String :=
  "Book " ++ apos ++ title ++ apos ++ " references missing master character id " ++ cid

def dupNameMsg (name : String) (ids : List String) : String :=
  "Multiple master characters share name " ++ apos ++ name ++ apos ++
    " with ids " ++ pyReprStrList ids ++ " — possible duplication."

/-- First scan: for every book, every referenced character id absent from
the master collection yields one issue line, in book-then-reference
order. -/
def missing_ref_issues (d : Doc) : List String :=
  (d.books.map (fun b =>
    (b.characters.filter
      (fun cid => !((d.master.characters.map MChar.id).contains cid))).map
      (fun cid => missingRefMsg b.title cid))).flatten

/-- `name_to_ids.setdefault(lower_name, []).append(id)`: group the master
ids by lower-cased name, insertion-ordered like a Python dict. -/
def add_to_groups (k v : String) : List (String × List String) → List (String × List String)
  | [] => [(k, [v])]
  | (k2, vs) :: rest =>
      if k = k2 then (k2, vs ++ [v]) :: rest else (k2, vs) :: add_to_groups k v rest

def name_groups (cs : List MChar) : List (String × List String) :=
  cs.foldl (fun m c => add_to_groups (pyLower c.name) c.id m) []

/-- Second scan: one issue per lower-cased name shared by more than one
master character. -/
def dup_name_issues (d : Doc) : List String :=
  (name_groups d.master.characters).filterMap
    (fun g => if g.2.length > 1 then some (dupNameMsg g.1 g.2) else none)

/-- `continuity_check`: the ordered issue list (missing references first,
then duplicate names); the empty list is the "no issues" outcome. -/
def continuity_check (d : Doc) : List String :=
  missing_ref_issues d ++ dup_name_issues d

/-! ## Thematic cohesion (`thematic_cohesion`, lines 694–714) -/

/-- `theme_counts[t.lower()] = theme_counts.get(t.lower(), 0) + 1` on an
insertion-ordered association list. -/
def bump_count (k : String) : List (String × Nat) → List (String × Nat)
  | [] => [(k, 1)]
  | (k2, n) :: rest =>
      if k = k2 then (k2, n + 1) :: rest else (k2, n) :: bump_count k rest

/-- The tally of lower-cased theme tags over all books (occurrences, not
books: a tag listed twice in one book counts twice, as in the source). -/
def tally_themes (books : List Book) : List (String × Nat) :=
  books.foldl (fun m b => b.themes.foldl (fun m2 t => bump_count (pyLower t) m2) m) []

/-- The observable outcome of `thematic_cohesion`: either the fixed
"no themes recorded" report, or the tally together with the list of themes
the scan flags as under-represented (`cnt < total_books / 2` in exact
arithmetic, with the source's `max(1, len(books))` denominator). -/
inductive ThematicResult where
  | noThemes : ThematicResult
  | report (counts : List (String × Nat)) (missing : List String) : ThematicResult
deriving DecidableEq

def thematic_cohesion (d : Doc) : ThematicResult :=
  let counts := tally_themes d.books
  if counts = [] then .noThemes
  else
    let total := max 1 d.books.length
    .report counts ((counts.filter (fun tc => 2 * tc.2 < total)).map Prod.fst)

/-- The themes `thematic_cohesion` flags as under-represented (empty when
it reports "no themes recorded"). -/
def under_represented (d : Doc) : List String :=
  match thematic_cohesion d with
  | .noThemes => []
  | .report _ missing => missing

/-! ## The Oracle's advice (`oracles_advice`, lines 740–776) -/

def conflictLines (a b : String) : List String :=
  ["\nPossible conflicts between " ++ a ++ " and " ++ b ++ ":",
   "1) Clashing motivations: " ++ a ++ " wants X while " ++ b ++
     " needs Y, forcing them to collide.",
   "2) Past secret revealed: one holds a secret that undermines trust.",
   "3) Resource/goal competition: both pursue the same scarce resource or position.",
   "Consider aligning conflict to your series themes for stronger cohesion."]

def couldntIdentifyLines : List String :=
  ["I couldn" ++ apos ++ "t identify two character names from the master codex " ++
    "in your query. Try writing both character names exactly as they are in " ++
    "Master Characters."]

def escalateLines : List String :=
  ["\nWays to escalate stakes:",
   "- Personal stakes: threaten what the protagonist values most (relationships, reputation, self-image).",
   "- Societal stakes: push the world toward a tipping point (war, famine, collapse).",
   "- Moral stakes: force character to choose between two bad options, revealing values.",
   "- Reveal a costly secret that changes goals and alliances."]

def generalAdviceLines : List String :=
  ["\nGeneral advice:",
   "Use contrasts: pair proactive characters with reactive ones. Use consequences: each choice should change the world irreversibly. If unsure, describe a scene and I can offer targeted edits."]

def noQueryLines : List String := ["No query entered."]

/-- The master character names whose lower-casing occurs in the
lower-cased query, in master-collection order (one entry per master
character, so a shared name can appear twice). -/
def mentioned_names (d : Doc) (qlower : String) : List String :=
  (d.master.characters.map MChar.name).filter (fun n => pyIn (pyLower n) qlower)

/-- `oracles_advice` as a function from the document and the raw query
line to the list of printed response lines.  The source also computes an
unused local `words = q.replace("?", "").split()`; it has no effect and is
not modelled. -/
def oracles_advice (d : Doc) (input : String) : List String :=
  let q := pyStrip input
  if q = "" then noQueryLines
  else
    let qlower := pyLower q
    if pyIn "conflict" qlower && pyIn "between" qlower then
      match mentioned_names d qlower with
      | a :: b :: _ => conflictLines a b
      | _ => couldntIdentifyLines
    else if pyIn "escalate" qlower || pyIn "escalation" qlower || pyIn "stakes" qlower then
      escalateLines
    else
      generalAdviceLines

/-! ## Persistence (`save_data` lines 33–35, `load_data` lines 38–51)

`save_data` runs `json.dump(data, f)` and `load_data` runs
`json.load(f)` and "returns it verbatim" (no validation or migration).
The pair is modelled at the level of JSON value trees: `JValue` is the
JSON data the program's documents serialize to (objects with string keys,
arrays, strings, integers, null — the only value kinds the document
contains), `docToJson` is the tree `json.dump` writes, and `docFromJson`
reads such a tree back as a document.  Python's textual rendering and
parsing are exact inverses on these trees (insertion-ordered objects,
arbitrary-precision integers), so the text layer is treated as the
identity on `JValue`. -/

inductive JValue where
  | null : JValue
  | str (s : String) : JValue
  | num (n : Int) : JValue
  | arr (xs : List JValue) : JValue
  | obj (fields : List (String × JValue)) : JValue

def optIntToJson : Option Int → JValue
  | none => .null
  | some n => .num n

def optIntFromJson : JValue → Option (Option Int)
  | .null => some none
  | .num n => some (some n)
  | _ => none

def optStrToJson : Option String → JValue
  | none => .null
  | some s => .str s

def optStrFromJson : JValue → Option (Option String)
  | .null => some none
  | .str s => some (some s)
  | _ => none

def strFromJson : JValue → Option String
  | .str s => some s
  | _ => none

/-- Decode every element of a JSON array, failing if any element fails. -/
def decList (dec : JValue → Option α) : List JValue → Option (List α)
  | [] => some []
  | j :: js =>
      match dec j with
      | none => none
      | some a =>
          match decList dec js with
          | none => none
          | some as => some (a :: as)

def seriesToJson : SeriesInfo → JValue
  | s => .obj [("title", .str s.title), ("genre", .str s.genre),
      ("logline", .str s.logline), ("planned_books", optIntToJson s.planned_books),
      ("interconnection_style", .str s.interconnection_style),
      ("protagonist_overall_arc", .str s.protagonist_overall_arc),
      ("updated_at", .str s.updated_at)]

def seriesFromJson : JValue → Option SeriesInfo
  | .obj [("title", .str t), ("genre", .str g), ("logline", .str l),
      ("planned_books", pb), ("interconnection_style", .str ic),
      ("protagonist_overall_arc", .str pa), ("updated_at", .str ua)] =>
      match optIntFromJson pb with
      | none => none
      | some pbv => some ⟨t, g, l, pbv, ic, pa, ua⟩
  | _ => none

def optSeriesToJson : Option SeriesInfo → JValue
  | none => .null
  | some s => seriesToJson s

def optSeriesFromJson : JValue → Option (Option SeriesInfo)
  | .null => some none
  | j => match seriesFromJson j with
      | none => none
      | some s => some (some s)

def profileToJson : BookProfile → JValue
  | p => .obj [("role_in_book", .str p.role_in_book), ("notes", .str p.notes)]

def profileFromJson : JValue → Option BookProfile
  | .obj [("role_in_book", .str r), ("notes", .str n)] => some ⟨r, n⟩
  | _ => none

def profMapFromJson : List (String × JValue) → Option (List (String × BookProfile))
  | [] => some []
  | (k, j) :: rest =>
      match profileFromJson j with
      | none => none
      | some p =>
          match profMapFromJson rest with
          | none => none
          | some ps => some ((k, p) :: ps)

def bookEventToJson : BookEvent → JValue
  | e => .obj [("when", .str e.when), ("desc", .str e.desc)]

def bookEventFromJson : JValue → Option BookEvent
  | .obj [("when", .str w), ("desc", .str d)] => some ⟨w, d⟩
  | _ => none

def bookToJson (b : Book) : JValue :=
  .obj [("id", .str b.id), ("title", .str b.title), ("number", optIntToJson b.number),
    ("logline", .str b.logline), ("planned_length", optIntToJson b.planned_length),
    ("plot_outline", .arr (b.plot_outline.map .str)),
    ("characters", .arr (b.characters.map .str)),
    ("book_char_profiles", .obj (b.book_char_profiles.map (fun kv => (kv.1, profileToJson kv.2)))),
    ("timeline", .arr (b.timeline.map bookEventToJson)),
    ("themes", .arr (b.themes.map .str)),
    ("created_at", .str b.created_at)]

/-- The body of `bookFromJson` once the object skeleton has matched:
decode each field payload, failing if any fails. -/
def bookOfParts (i t : String) (nb : JValue) (l : String) (pl : JValue)
    (po cs : List JValue) (ps : List (String × JValue)) (tl th : List JValue)
    (ca : String) : Option Book :=
  match optIntFromJson nb with
  | none => none
  | some nbv =>
    match optIntFromJson pl with
    | none => none
    | some plv =>
      match decList strFromJson po with
      | none => none
      | some pov =>
        match decList strFromJson cs with
        | none => none
        | some csv =>
          match profMapFromJson ps with
          | none => none
          | some psv =>
            match decList bookEventFromJson tl with
            | none => none
            | some tlv =>
              match decList strFromJson th with
              | none => none
              | some thv => some ⟨i, t, nbv, l, plv, pov, csv, psv, tlv, thv, ca⟩

def bookFromJson : JValue → Option Book
  | .obj [("id", .str i), ("title", .str t), ("number", nb), ("logline", .str l),
      ("planned_length", pl), ("plot_outline", .arr po), ("characters", .arr cs),
      ("book_char_profiles", .obj ps), ("timeline", .arr tl), ("themes", .arr th),
      ("created_at", .str ca)] => bookOfParts i t nb l pl po cs ps tl th ca
  | _ => none

def mcharToJson (c : MChar) : JValue :=
  .obj [("id", .str c.id), ("name", .str c.name), ("role", .str c.role),
    ("personality", .str c.personality),
    ("personality_analysis", .str c.personality_analysis),
    ("series_arc", .str c.series_arc), ("notes", .str c.notes),
    ("created_at", .str c.created_at)]

def mcharFromJson : JValue → Option MChar
  | .obj [("id", .str i), ("name", .str n), ("role", .str r), ("personality", .str p),
      ("personality_analysis", .str pa), ("series_arc", .str sa), ("notes", .str no),
      ("created_at", .str ca)] => some ⟨i, n, r, p, pa, sa, no, ca⟩
  | _ => none

def mlocToJson (l : MLoc) : JValue :=
  .obj [("id", .str l.id), ("name", .str l.name), ("brief", .str l.brief),
    ("evolution", .str l.evolution), ("created_at", .str l.created_at)]

def mlocFromJson : JValue → Option MLoc
  | .obj [("id", .str i), ("name", .str n), ("brief", .str b), ("evolution", .str e),
      ("created_at", .str ca)] => some ⟨i, n, b, e, ca⟩
  | _ => none

def mloreToJson (l : MLore) : JValue :=
  .obj [("id", .str l.id), ("title", .str l.title), ("summary", .str l.summary),
    ("created_at", .str l.created_at)]

def mloreFromJson : JValue → Option MLore
  | .obj [("id", .str i), ("title", .str t), ("summary", .str s),
      ("created_at", .str ca)] => some ⟨i, t, s, ca⟩
  | _ => none

def meventToJson (e : MEvent) : JValue :=
  .obj [("when", .str e.when), ("desc", .str e.desc),
    ("book_id", optStrToJson e.book_id)]

def meventFromJson : JValue → Option MEvent
  | .obj [("when", .str w), ("desc", .str d), ("book_id", bi)] =>
      match optStrFromJson bi with
      | none => none
      | some biv => some ⟨w, d, biv⟩
  | _ => none

/-- The JSON tree `save_data` writes for a document. -/
def docToJson (d : Doc) : JValue :=
  .obj [("meta", .obj [("created_at", .str d.meta.created_at)]),
    ("series", optSeriesToJson d.series),
    ("books", .arr (d.books.map bookToJson)),
    ("master", .obj [("characters", .arr (d.master.characters.map mcharToJson)),
      ("locations", .arr (d.master.locations.map mlocToJson)),
      ("lore", .arr (d.master.lore.map mloreToJson))]),
    ("timeline", .arr (d.timeline.map meventToJson))]

/-- The body of `docFromJson` once the object skeleton has matched. -/
def docOfParts (ca : String) (sj : JValue) (bs cs ls lo tl : List JValue) : Option Doc :=
  match optSeriesFromJson sj with
  | none => none
  | some sv =>
    match decList bookFromJson bs with
    | none => none
    | some bv =>
      match decList mcharFromJson cs with
      | none => none
      | some cv =>
        match decList mlocFromJson ls with
        | none => none
        | some lv =>
          match decList mloreFromJson lo with
          | none => none
          | some rv =>
            match decList meventFromJson tl with
            | none => none
            | some tv => some ⟨⟨ca⟩, sv, bv, ⟨cv, lv, rv⟩, tv⟩

/-- Reading the persisted JSON tree back as a document. -/
def docFromJson : JValue → Option Doc
  | .obj [("meta", .obj [("created_at", .str ca)]), ("series", sj),
      ("books", .arr bs), ("master", .obj [("characters", .arr cs),
        ("locations", .arr ls), ("lore", .arr lo)]), ("timeline", .arr tl)] =>
      docOfParts ca sj bs cs ls lo tl
  | _ => none

/-! ## Infrastructure: correctness of the Python string primitives -/

theorem pfx_iff : ∀ n h : List Char, pfx n h = true ↔ ∃ post, h = n ++ post := by
  intro n
  induction n with
  | nil => intro h; simp [pfx]
  | cons a as ih =>
    intro h
    cases h with
    | nil =>
      simp only [pfx, List.cons_append]
      constructor
      · intro hfalse; cases hfalse
      · rintro ⟨post, hpost⟩; cases hpost
    | cons b bs =>
      simp only [pfx, Bool.and_eq_true, beq_iff_eq, ih, List.cons_append]
      constructor
      · rintro ⟨hab, post, hpost⟩
        exact ⟨post, by rw [hab, hpost]⟩
      · rintro ⟨post, hpost⟩
        injection hpost with h1 h2
        exact ⟨h1.symm, post, h2⟩

theorem subList_iff : ∀ n h : List Char, subList n h = true ↔
    ∃ pre post, h = pre ++ n ++ post := by
  intro n h
  induction h with
  | nil =>
    simp only [subList, List.isEmpty_iff]
    constructor
    · rintro rfl; exact ⟨[], [], rfl⟩
    · rintro ⟨pre, post, hpost⟩
      rcases List.append_eq_nil.mp hpost.symm with ⟨h1, h2⟩
      exact (List.append_eq_nil.mp h1).2
  | cons c rest ih =>
    simp only [subList, Bool.or_eq_true, pfx_iff, ih]
    constructor
    · rintro (⟨post, hpost⟩ | ⟨pre, post, hpost⟩)
      · exact ⟨[], post, by simpa using hpost⟩
      · exact ⟨c :: pre, post, by simp [hpost]⟩
    · rintro ⟨pre, post, hpost⟩
      cases pre with
      | nil => exact Or.inl ⟨post, by simpa using hpost⟩
      | cons p ps =>
        right
        injection hpost with h1 h2
        exact ⟨ps, post, h2⟩

theorem pyIn_iff (needle hay : String) : pyIn needle hay = true ↔
    ∃ pre post, hay.data = pre ++ needle.data ++ post := by
  exact subList_iff needle.data hay.data

theorem pyIn_trans {a b c : String} (h1 : pyIn a b = true) (h2 : pyIn b c = true) :
    pyIn a c = true := by
  rcases (pyIn_iff a b).mp h1 with ⟨p1, q1, hb⟩
  rcases (pyIn_iff b c).mp h2 with ⟨p2, q2, hc⟩
  refine (pyIn_iff a c).mpr ⟨p2 ++ p1, q1 ++ q2, ?_⟩
  rw [hc, hb]; simp

theorem pyIn_map_lower {needle hay : String} (h : pyIn needle hay = true)
    (hfix : needle.data.map Char.toLower = needle.data) :
    pyIn needle (pyLower hay) = true := by
  rcases (pyIn_iff needle hay).mp h with ⟨pre, post, hdecomp⟩
  refine (pyIn_iff needle (pyLower hay)).mpr
    ⟨pre.map Char.toLower, post.map Char.toLower, ?_⟩
  show hay.data.map Char.toLower = _
  rw [hdecomp]; simp [hfix]

theorem pyIn_append_three (x sep rest : String) :
    (x ++ sep ++ rest).data = x.data ++ sep.data ++ rest.data := by
  simp [String.data_append]

theorem pyIn_of_mem_pyJoin (sep : String) :
    ∀ (l : List String) (x : String), x ∈ l → pyIn x (pyJoin sep l) = true := by
  intro l
  induction l with
  | nil => intro x hx; cases hx
  | cons y ys ih =>
    intro x hx
    cases ys with
    | nil =>
      rcases List.mem_singleton.mp hx with rfl
      exact (pyIn_iff x (pyJoin sep [x])).mpr ⟨[], [], by simp [pyJoin]⟩
    | cons z zs =>
      rcases List.mem_cons.mp hx with rfl | hmem
      · refine (pyIn_iff x _).mpr ⟨[], sep.data ++ (pyJoin sep (z :: zs)).data, ?_⟩
        show (x ++ sep ++ pyJoin sep (z :: zs)).data = _
        simp [String.data_append]
      · have := ih x hmem
        rcases (pyIn_iff x (pyJoin sep (z :: zs))).mp this with ⟨pre, post, hdecomp⟩
        refine (pyIn_iff x _).mpr ⟨y.data ++ sep.data ++ pre, post, ?_⟩
        show (y ++ sep ++ pyJoin sep (z :: zs)).data = _
        rw [String.data_append, String.data_append, hdecomp]; simp

/-! ## Infrastructure: decimal rendering and generated ids -/

theorem natToDigits_lt10 : ∀ fuel n d, d ∈ natToDigits fuel n → d < 10 := by
  intro fuel
  induction fuel with
  | zero => intro n d hd; cases hd
  | succ f ih =>
    intro n d hd
    by_cases hn : n < 10
    · simp only [natToDigits, if_pos hn, List.mem_singleton] at hd
      exact hd ▸ hn
    · simp only [natToDigits, if_neg hn, List.mem_append, List.mem_singleton] at hd
      rcases hd with hd | rfl
      · exact ih _ _ hd
      · exact Nat.mod_lt _ (by omega)

def digitsVal (l : List Nat) : Nat := l.foldl (fun a d => a * 10 + d) 0

theorem digitsVal_concat (l : List Nat) (d : Nat) :
    digitsVal (l ++ [d]) = digitsVal l * 10 + d := by
  simp [digitsVal, List.foldl_append]

theorem digitsVal_natToDigits : ∀ fuel n, n ≤ fuel →
    digitsVal (natToDigits fuel n) = n := by
  intro fuel
  induction fuel with
  | zero =>
    intro n hn
    have : n = 0 := Nat.le_zero.mp hn
    subst this
    rfl
  | succ f ih =>
    intro n hn
    by_cases h10 : n < 10
    · simp [natToDigits, if_pos h10, digitsVal]
    · have hdiv : n / 10 < n := Nat.div_lt_self (by omega) (by omega)
      rw [natToDigits, if_neg h10, digitsVal_concat, ih _ (by omega)]
      have := Nat.div_add_mod n 10
      omega

theorem digitChar_inj_lt : ∀ d < 10, ∀ e < 10,
    Nat.digitChar d = Nat.digitChar e → d = e := by decide

theorem digitChar_ne_underscore : ∀ d < 10, Nat.digitChar d ≠ '_' := by decide

theorem map_digitChar_inj : ∀ l1 l2 : List Nat, (∀ d ∈ l1, d < 10) →
    (∀ d ∈ l2, d < 10) → l1.map Nat.digitChar = l2.map Nat.digitChar → l1 = l2 := by
  intro l1
  induction l1 with
  | nil =>
    intro l2 _ _ hmap
    cases l2 with
    | nil => rfl
    | cons b bs => cases hmap
  | cons a as ih =>
    intro l2 h1 h2 hmap
    cases l2 with
    | nil => cases hmap
    | cons b bs =>
      injection hmap with hhead htail
      have ha : a = b :=
        digitChar_inj_lt a (h1 a (by simp)) b (h2 b (by simp)) hhead
      rw [ha, ih bs (fun d hd => h1 d (by simp [hd])) (fun d hd => h2 d (by simp [hd])) htail]

theorem natRepr_data (n : Nat) :
    (natRepr n).data = (natToDigits n n).map Nat.digitChar := rfl

theorem natRepr_inj : ∀ a b : Nat, (natRepr a).data = (natRepr b).data → a = b := by
  intro a b h
  rw [natRepr_data, natRepr_data] at h
  have := map_digitChar_inj (natToDigits a a) (natToDigits b b)
    (fun d hd => natToDigits_lt10 a a d hd) (fun d hd => natToDigits_lt10 b b d hd) h
  calc a = digitsVal (natToDigits a a) := (digitsVal_natToDigits a a le_rfl).symm
    _ = digitsVal (natToDigits b b) := by rw [this]
    _ = b := digitsVal_natToDigits b b le_rfl

theorem natRepr_no_underscore (n : Nat) : '_' ∉ (natRepr n).data := by
  rw [natRepr_data]
  intro hmem
  rcases List.mem_map.mp hmem with ⟨d, hd, hchar⟩
  exact digitChar_ne_underscore d (natToDigits_lt10 n n d hd) hchar

theorem split_at_underscore : ∀ (l1 l2 r1 r2 : List Char), '_' ∉ l1 → '_' ∉ l2 →
    l1 ++ '_' :: r1 = l2 ++ '_' :: r2 → l1 = l2 ∧ r1 = r2 := by
  intro l1
  induction l1 with
  | nil =>
    intro l2 r1 r2 _ h2 heq
    cases l2 with
    | nil => simpa using heq
    | cons c cs =>
      injection heq with hhead _
      exact absurd (hhead ▸ List.mem_cons_self c cs) (hhead ▸ h2)
  | cons a as ih =>
    intro l2 r1 r2 h1 h2 heq
    cases l2 with
    | nil =>
      injection heq with hhead _
      exact absurd (hhead ▸ List.mem_cons_self a as) h1
    | cons c cs =>
      injection heq with hhead htail
      have := ih cs r1 r2 (fun hm => h1 (List.mem_cons_of_mem a hm))
        (fun hm => h2 (List.mem_cons_of_mem c hm)) htail
      exact ⟨by rw [hhead, this.1], this.2⟩

/-- The generated id `{p}{k}_{t}` determines the count component `k`:
two ids built over the same prefix from different counts differ, whatever
the timestamps. -/
theorem id_count_inj (p : String) (a t b t2 : Nat)
    (h : p ++ natRepr a ++ "_" ++ natRepr t = p ++ natRepr b ++ "_" ++ natRepr t2) :
    a = b := by
  have hdata : p.data ++ ((natRepr a).data ++ ('_' :: (natRepr t).data)) =
      p.data ++ ((natRepr b).data ++ ('_' :: (natRepr t2).data)) := by
    have := congrArg String.data h
    simpa [String.data_append] using this
  have hcancel := List.append_cancel_left hdata
  have := split_at_underscore (natRepr a).data (natRepr b).data
    (natRepr t).data (natRepr t2).data (natRepr_no_underscore a)
    (natRepr_no_underscore b) (by simpa using hcancel)
  exact natRepr_inj a b this.1

/-! ## Id freshness on deletion-free histories -/

/-- The ids of a master collection all have the generated shape
`{p}{position+1}_{timestamp}`: entry `i` carries count component `i + 1`.
This is exactly the situation after any sequence of creations with no
deletion (a deletion shifts later entries down and breaks it). -/
def GoodIds (p : String) (ids : List String) : Prop :=
  ∀ i s, ids[i]? = some s → ∃ t, s = p ++ natRepr (i + 1) ++ "_" ++ natRepr t

theorem goodIds_nil (p : String) : GoodIds p [] := by
  intro i s hs
  simp at hs

theorem goodIds_append {p : String} {ids : List String} (h : GoodIds p ids) (t : Nat) :
    GoodIds p (ids ++ [p ++ natRepr (ids.length + 1) ++ "_" ++ natRepr t]) := by
  intro i s hs
  by_cases hi : i < ids.length
  · rw [List.getElem?_append_left hi] at hs
    exact h i s hs
  · rw [List.getElem?_append_right (by omega)] at hs
    by_cases hieq : i = ids.length
    · subst hieq
      simp at hs
      exact ⟨t, hs.symm⟩
    · have : i - ids.length ≥ 1 := by omega
      rw [show i - ids.length = (i - ids.length - 1) + 1 by omega] at hs
      simp at hs

theorem goodIds_fresh {p : String} {ids : List String} (h : GoodIds p ids) (t : Nat) :
    (p ++ natRepr (ids.length + 1) ++ "_" ++ natRepr t) ∉ ids := by
  intro hmem
  rcases List.mem_iff_getElem?.mp hmem with ⟨i, hi⟩
  have hilen : i < ids.length := by
    rcases List.getElem?_eq_some.mp hi with ⟨hlt, _⟩
    exact hlt
  rcases h i _ hi with ⟨t2, heq⟩
  have := id_count_inj p (ids.length + 1) t (i + 1) t2 heq
  omega

/-- One create operation on one of the three master collections, with its
interactive inputs and the wall clock at that moment. -/
inductive CreateOp where
  | addChar (f : CharFields) (clk : Clock) : CreateOp
  | addLoc (f : LocFields) (clk : Clock) : CreateOp
  | addLore (f : LoreFields) (clk : Clock) : CreateOp

def apply_create (d : Doc) : CreateOp → Doc
  | .addChar f clk => create_master_character d f clk
  | .addLoc f clk => create_master_location d f clk
  | .addLore f clk => create_master_lore d f clk

/-- A deletion-free history: the document reached from a start state by a
sequence of master-collection creations. -/
def apply_creates (d : Doc) (ops : List CreateOp) : Doc := ops.foldl apply_create d

def FreshIdsInv (d : Doc) : Prop :=
  GoodIds "char_" (d.master.characters.map MChar.id) ∧
  GoodIds "loc_" (d.master.locations.map MLoc.id) ∧
  GoodIds "lore_" (d.master.lore.map MLore.id)

theorem freshIdsInv_default (iso : String) : FreshIdsInv (default_doc iso) :=
  ⟨goodIds_nil _, goodIds_nil _, goodIds_nil _⟩

theorem charIds_create (d : Doc) (f : CharFields) (clk : Clock) :
    (create_master_character d f clk).master.characters.map MChar.id =
      d.master.characters.map MChar.id ++
        ["char_" ++ natRepr ((d.master.characters.map MChar.id).length + 1) ++
          "_" ++ natRepr clk.ts] := by
  simp [create_master_character, List.map_append]

theorem locIds_create (d : Doc) (f : LocFields) (clk : Clock) :
    (create_master_location d f clk).master.locations.map MLoc.id =
      d.master.locations.map MLoc.id ++
        ["loc_" ++ natRepr ((d.master.locations.map MLoc.id).length + 1) ++
          "_" ++ natRepr clk.ts] := by
  simp [create_master_location, List.map_append]

theorem loreIds_create (d : Doc) (f : LoreFields) (clk : Clock) :
    (create_master_lore d f clk).master.lore.map MLore.id =
      d.master.lore.map MLore.id ++
        ["lore_" ++ natRepr ((d.master.lore.map MLore.id).length + 1) ++
          "_" ++ natRepr clk.ts] := by
  simp [create_master_lore, List.map_append]

theorem freshIdsInv_apply_create (d : Doc) (op : CreateOp) (h : FreshIdsInv d) :
    FreshIdsInv (apply_create d op) := by
  obtain ⟨hc, hl, hr⟩ := h
  cases op with
  | addChar f clk =>
    simp only [apply_create]
    refine ⟨?_, ?_, ?_⟩
    · rw [charIds_create]; exact goodIds_append hc clk.ts
    · simpa [create_master_character] using hl
    · simpa [create_master_character] using hr
  | addLoc f clk =>
    simp only [apply_create]
    refine ⟨?_, ?_, ?_⟩
    · simpa [create_master_location] using hc
    · rw [locIds_create]; exact goodIds_append hl clk.ts
    · simpa [create_master_location] using hr
  | addLore f clk =>
    simp only [apply_create]
    refine ⟨?_, ?_, ?_⟩
    · simpa [create_master_lore] using hc
    · simpa [create_master_lore] using hl
    · rw [loreIds_create]; exact goodIds_append hr clk.ts

theorem freshIdsInv_apply_creates : ∀ (ops : List CreateOp) (d : Doc),
    FreshIdsInv d → FreshIdsInv (apply_creates d ops) := by
  intro ops
  induction ops with
  | nil => intro d h; exact h
  | cons op rest ih =>
    intro d h
    exact ih (apply_create d op) (freshIdsInv_apply_create d op h)

theorem create_char_fresh (d : Doc) (f : CharFields) (clk : Clock)
    (h : GoodIds "char_" (d.master.characters.map MChar.id)) :
    ∀ e, (create_master_character d f clk).master.characters.getLast? = some e →
      e.id ∉ d.master.characters.map MChar.id := by
  intro e he
  have hform : (create_master_character d f clk).master.characters =
      d.master.characters ++ [{
        id := "char_" ++ natRepr (d.master.characters.length + 1) ++ "_" ++ natRepr clk.ts
        name := pyStrip f.name
        role := pyStrip f.role
        personality := pyStrip f.personality
        personality_analysis := analyze_personality_text (pyStrip f.personality)
        series_arc := pyStrip f.series_arc
        notes := pyStrip f.notes
        created_at := clk.iso }] := rfl
  rw [hform, List.getLast?_concat] at he
  have hfresh := goodIds_fresh h clk.ts
  rw [List.length_map] at hfresh
  injection he with he2
  rw [← he2]
  exact hfresh

theorem create_loc_fresh (d : Doc) (f : LocFields) (clk : Clock)
    (h : GoodIds "loc_" (d.master.locations.map MLoc.id)) :
    ∀ e, (create_master_location d f clk).master.locations.getLast? = some e →
      e.id ∉ d.master.locations.map MLoc.id := by
  intro e he
  have hform : (create_master_location d f clk).master.locations =
      d.master.locations ++ [{
        id := "loc_" ++ natRepr (d.master.locations.length + 1) ++ "_" ++ natRepr clk.ts
        name := pyStrip f.name
        brief := pyStrip f.brief
        evolution := pyStrip f.evolution
        created_at := clk.iso }] := rfl
  rw [hform, List.getLast?_concat] at he
  have hfresh := goodIds_fresh h clk.ts
  rw [List.length_map] at hfresh
  injection he with he2
  rw [← he2]
  exact hfresh

theorem create_lore_fresh (d : Doc) (f : LoreFields) (clk : Clock)
    (h : GoodIds "lore_" (d.master.lore.map MLore.id)) :
    ∀ e, (create_master_lore d f clk).master.lore.getLast? = some e →
      e.id ∉ d.master.lore.map MLore.id := by
  intro e he
  have hform : (create_master_lore d f clk).master.lore =
      d.master.lore ++ [{
        id := "lore_" ++ natRepr (d.master.lore.length + 1) ++ "_" ++ natRepr clk.ts
        title := pyStrip f.title
        summary := pyStrip f.summary
        created_at := clk.iso }] := rfl
  rw [hform, List.getLast?_concat] at he
  have hfresh := goodIds_fresh h clk.ts
  rw [List.length_map] at hfresh
  injection he with he2
  rw [← he2]
  exact hfresh

/-! ## Claim C1 -/

/-- A document with exactly one book, no characters assigned. -/
def c1Book : Book :=
  { id := "book_1_1", title := "The Start", number := some 1, logline := "",
    planned_length := none, plot_outline := [], characters := [],
    book_char_profiles := [], timeline := [], themes := [], created_at := "t0" }

def c1Doc : Doc :=
  { meta := ⟨"t0"⟩, series := none, books := [c1Book],
    master := ⟨[], [], []⟩, timeline := [] }

/-- Claim C1: the book-scoped create-and-add menu branch never adds the
new master character to the selected book.  For every document, book
index, field input and clock, the whole `books` entry of the document is
unchanged (so the new id is not in any reference list and no profile entry
appears), even though the master collection did grow by one; in
particular, on a one-book document with an empty reference list, the list
and the profile map are still empty afterwards. -/
theorem C1_createAndAdd_leaves_book_untouched :
    (∀ (d : Doc) (i : Nat) (f : CharFields) (clk : Clock),
      (create_and_add_book_character d i f clk).books = d.books ∧
      (create_and_add_book_character d i f clk).master.characters.length =
        d.master.characters.length + 1) ∧
    ((create_and_add_book_character c1Doc 0 ⟨"Ava", "Hero", "", "", ""⟩ ⟨1, "t1"⟩).books.map
        Book.characters = [[]] ∧
      (create_and_add_book_character c1Doc 0 ⟨"Ava", "Hero", "", "", ""⟩ ⟨1, "t1"⟩).books.map
        Book.book_char_profiles = [[]]) := by
  refine ⟨fun d i f clk => ⟨rfl, ?_⟩, by decide, by decide⟩
  simp [create_and_add_book_character, create_master_character]

/-! ## Claim C2 -/

def c2FieldsA : CharFields := ⟨"Ava", "Hero", "", "", ""⟩

def c2FieldsB : CharFields := ⟨"Kade", "Rival", "", "", ""⟩

/-- Two characters created during the same wall-clock second, then the
first one deleted: the surviving character has id `char_2_100` while the
collection length is back to 1. -/
def c2State : Doc :=
  delete_master_character
    (create_master_character
      (create_master_character (default_doc "t0") c2FieldsA ⟨100, "i1"⟩)
      c2FieldsB ⟨100, "i2"⟩)
    0

/-- Claim C2, counterexample: in the state reached by create, create,
delete-first (all inside wall-clock second 100), a further create in the
same second regenerates the id `char_2_100` of the surviving entry — the
new id collides with an existing one and the id list is no longer
duplicate-free. -/
theorem C2_counterexample :
    c2State.master.characters.map MChar.id = ["char_2_100"] ∧
    (create_master_character c2State c2FieldsA ⟨100, "i3"⟩).master.characters.map
        MChar.id = ["char_2_100", "char_2_100"] ∧
    ¬ ((create_master_character c2State c2FieldsA ⟨100, "i3"⟩).master.characters.map
        MChar.id).Nodup := by
  refine ⟨by decide, by decide, by decide⟩

/-- Claim C2 (amended): on any document state reachable from the default
document by create operations alone (no deletions), `create` on each of
the three master collections produces an entry whose id differs from the
id of every entry already in that collection.  (After a deletion the claim
fails: see the counterexample — an id is reused when a create runs in the
same wall-clock second as the create of a surviving entry.) -/
theorem C2_create_ids_fresh_without_deletion (ops : List CreateOp)
    (fc : CharFields) (fl : LocFields) (fr : LoreFields) (clk : Clock) (iso : String) :
    (∀ e, (create_master_character (apply_creates (default_doc iso) ops) fc
        clk).master.characters.getLast? = some e →
      e.id ∉ (apply_creates (default_doc iso) ops).master.characters.map MChar.id) ∧
    (∀ e, (create_master_location (apply_creates (default_doc iso) ops) fl
        clk).master.locations.getLast? = some e →
      e.id ∉ (apply_creates (default_doc iso) ops).master.locations.map MLoc.id) ∧
    (∀ e, (create_master_lore (apply_creates (default_doc iso) ops) fr
        clk).master.lore.getLast? = some e →
      e.id ∉ (apply_creates (default_doc iso) ops).master.lore.map MLore.id) := by
  have hinv := freshIdsInv_apply_creates ops (default_doc iso) (freshIdsInv_default iso)
  exact ⟨create_char_fresh _ fc clk hinv.1, create_loc_fresh _ fl clk hinv.2.1,
    create_lore_fresh _ fr clk hinv.2.2⟩

/-! ## Claim C3 -/

/-- The reference-list/profile-map sync invariant the program maintains
for each book (§3 of the spec): no duplicate references, and every
profile key is a referenced id. -/
def bookWF (b : Book) : Prop :=
  b.characters.Nodup ∧ ∀ kv ∈ b.book_char_profiles, kv.1 ∈ b.characters

instance (b : Book) : Decidable (bookWF b) := by
  unfold bookWF
  infer_instance

theorem mem_eraseIdx_of_ne {α : Type} : ∀ (l : List α) (i : Nat) (c x : α),
    l[i]? = some c → x ∈ l → x ≠ c → x ∈ l.eraseIdx i := by
  intro l
  induction l with
  | nil => intro i c x h _ _; simp at h
  | cons a as ih =>
    intro i c x hgi hmem hne
    cases i with
    | zero =>
      have ha : a = c := by simpa using hgi
      subst ha
      rcases List.mem_cons.mp hmem with rfl | hm
      · exact absurd rfl hne
      · simpa [List.eraseIdx] using hm
    | succ j =>
      have hgi2 : as[j]? = some c := by simpa using hgi
      rcases List.mem_cons.mp hmem with rfl | hm
      · simp [List.eraseIdx]
      · have := ih j c x hgi2 hm hne
        simp [List.eraseIdx, this]

/-- What deleting master character `c` (sitting at position `idx`) does,
stated field by field: `c` disappears from every book's reference list and
profile map; everything else — every other field of every book, every
other profile entry and reference, the series record, the master timeline,
locations, lore, and every other master character — is untouched. -/
def delete_cascade_spec (d : Doc) (idx : Nat) (c : MChar) : Prop :=
  let d2 := delete_master_character d idx
  (∀ b2 ∈ d2.books, c.id ∉ b2.characters ∧ ∀ kv ∈ b2.book_char_profiles, kv.1 ≠ c.id) ∧
  d2.books.length = d.books.length ∧
  (∀ (i : Nat) (b b2 : Book), d.books[i]? = some b → d2.books[i]? = some b2 →
    b2.id = b.id ∧ b2.title = b.title ∧ b2.number = b.number ∧ b2.logline = b.logline ∧
    b2.planned_length = b.planned_length ∧ b2.plot_outline = b.plot_outline ∧
    b2.timeline = b.timeline ∧ b2.themes = b.themes ∧ b2.created_at = b.created_at ∧
    (∀ x, x ≠ c.id → (x ∈ b2.characters ↔ x ∈ b.characters)) ∧
    (∀ kv, kv ∈ b.book_char_profiles → kv.1 ≠ c.id → kv ∈ b2.book_char_profiles) ∧
    (∀ kv, kv ∈ b2.book_char_profiles → kv ∈ b.book_char_profiles)) ∧
  d2.series = d.series ∧ d2.meta = d.meta ∧ d2.timeline = d.timeline ∧
  d2.master.locations = d.master.locations ∧ d2.master.lore = d.master.lore ∧
  d2.master.characters.length = d.master.characters.length - 1 ∧
  (∀ c2 ∈ d.master.characters, c2.id ≠ c.id → c2 ∈ d2.master.characters)

theorem remove_char_frame (cid : String) (b : Book) :
    (remove_char_from_book cid b).id = b.id ∧
    (remove_char_from_book cid b).title = b.title ∧
    (remove_char_from_book cid b).number = b.number ∧
    (remove_char_from_book cid b).logline = b.logline ∧
    (remove_char_from_book cid b).planned_length = b.planned_length ∧
    (remove_char_from_book cid b).plot_outline = b.plot_outline ∧
    (remove_char_from_book cid b).timeline = b.timeline ∧
    (remove_char_from_book cid b).themes = b.themes ∧
    (remove_char_from_book cid b).created_at = b.created_at := by
  unfold remove_char_from_book
  by_cases h : cid ∈ b.characters <;> simp [h]

theorem remove_char_removes (cid : String) (b : Book) (hwf : bookWF b) :
    cid ∉ (remove_char_from_book cid b).characters ∧
    ∀ kv ∈ (remove_char_from_book cid b).book_char_profiles, kv.1 ≠ cid := by
  unfold remove_char_from_book
  by_cases h : cid ∈ b.characters
  · refine ⟨?_, ?_⟩
    · simpa [h] using hwf.1.not_mem_erase
    · intro kv hkv
      simp only [if_pos h, List.mem_filter] at hkv
      simpa using hkv.2
  · refine ⟨by simp [h], ?_⟩
    intro kv hkv
    simp only [if_neg h] at hkv
    intro heq
    exact h (heq ▸ hwf.2 kv hkv)

theorem remove_char_keeps_others (cid : String) (b : Book) :
    (∀ x, x ≠ cid → (x ∈ (remove_char_from_book cid b).characters ↔ x ∈ b.characters)) ∧
    (∀ kv, kv ∈ b.book_char_profiles → kv.1 ≠ cid →
      kv ∈ (remove_char_from_book cid b).book_char_profiles) ∧
    (∀ kv, kv ∈ (remove_char_from_book cid b).book_char_profiles →
      kv ∈ b.book_char_profiles) := by
  unfold remove_char_from_book
  by_cases h : cid ∈ b.characters
  · refine ⟨?_, ?_, ?_⟩
    · intro x hx
      simpa [h] using List.mem_erase_of_ne hx
    · intro kv hkv hne
      simp only [if_pos h, List.mem_filter]
      exact ⟨hkv, by simpa using hne⟩
    · intro kv hkv
      simp only [if_pos h, List.mem_filter] at hkv
      exact hkv.1
  · refine ⟨by simp [h], ?_, by simp [h]⟩
    intro kv hkv _
    simpa [h] using hkv

/-- Claim C3: on a document whose books satisfy the maintained sync
invariant, deleting the master character at `idx` cascades exactly:
its id leaves every reference list and every profile map, and everything
else in the document is unchanged. -/
theorem C3_delete_master_character_cascades (d : Doc) (idx : Nat) (c : MChar)
    (hidx : d.master.characters[idx]? = some c)
    (hwf : ∀ b ∈ d.books, bookWF b) :
    delete_cascade_spec d idx c := by
  have hd2 : delete_master_character d idx =
      { d with
        master := { d.master with characters := d.master.characters.eraseIdx idx }
        books := d.books.map (remove_char_from_book c.id) } := by
    rw [delete_master_character, hidx]
  unfold delete_cascade_spec
  rw [hd2]
  refine ⟨?_, by simp, ?_, rfl, rfl, rfl, rfl, rfl, ?_, ?_⟩
  · intro b2 hb2
    rcases List.mem_map.mp hb2 with ⟨b, hb, rfl⟩
    exact remove_char_removes c.id b (hwf b hb)
  · intro i b b2 hb hb2
    simp only [List.getElem?_map, hb, Option.map_some] at hb2
    injection hb2 with hb2
    subst hb2
    rcases remove_char_frame c.id b with ⟨h1, h2, h3, h4, h5, h6, h7, h8, h9⟩
    rcases remove_char_keeps_others c.id b with ⟨k1, k2, k3⟩
    exact ⟨h1, h2, h3, h4, h5, h6, h7, h8, h9, k1, k2, k3⟩
  · have hlt : idx < d.master.characters.length := by
      rcases List.getElem?_eq_some.mp hidx with ⟨hlt, _⟩
      exact hlt
    simpa using List.length_eraseIdx_of_lt hlt
  · intro c2 hc2 hne
    exact mem_eraseIdx_of_ne d.master.characters idx c c2 hidx hc2
      (fun h => hne (by rw [h]))

def c3Char : MChar := ⟨"char_1_50", "Ava", "Hero", "", "", "", "", "t1"⟩

def c3Book : Book :=
  { id := "book_1_60", title := "The Start", number := some 1, logline := "",
    planned_length := none, plot_outline := [], characters := ["char_1_50"],
    book_char_profiles := [("char_1_50", ⟨"", ""⟩)], timeline := [], themes := [],
    created_at := "t2" }

def c3Doc : Doc :=
  { meta := ⟨"t0"⟩, series := none, books := [c3Book],
    master := ⟨[c3Char], [], []⟩, timeline := [] }

/-- Claim C3, witness: the spec's own scenario — Ava is master character
`char_1_50`, one book references her with an empty profile; deleting her
satisfies the cascade/frame specification. -/
theorem C3_witness :
    c3Doc.master.characters[0]? = some c3Char ∧ (∀ b ∈ c3Doc.books, bookWF b) ∧
    delete_cascade_spec c3Doc 0 c3Char :=
  ⟨by decide, by decide,
    C3_delete_master_character_cascades c3Doc 0 c3Char (by decide) (by decide)⟩

/-! ## Claim C4 -/

theorem add_to_groups_new_key (k v : String) :
    ∀ m : List (String × List String), k ∉ m.map Prod.fst →
      add_to_groups k v m = m ++ [(k, [v])] := by
  intro m
  induction m with
  | nil => intro; rfl
  | cons g rest ih =>
    intro hk
    obtain ⟨k2, vs⟩ := g
    have hne : k ≠ k2 := by
      intro h
      exact hk (by simp [h])
    simp only [add_to_groups, if_neg hne, List.cons_append]
    rw [ih (fun hm => hk (by simp [hm]))]

theorem groups_singleton : ∀ (cs : List MChar) (m : List (String × List String)),
    (m.map Prod.fst ++ cs.map (fun c => pyLower c.name)).Nodup →
    (∀ g ∈ m, g.2.length = 1) →
    ∀ g ∈ cs.foldl (fun m2 c => add_to_groups (pyLower c.name) c.id m2) m,
      g.2.length = 1 := by
  intro cs
  induction cs with
  | nil =>
    intro m _ hm g hg
    exact hm g hg
  | cons c rest ih =>
    intro m hnodup hm
    simp only [List.foldl_cons]
    have hknotin : pyLower c.name ∉ m.map Prod.fst := by
      rcases List.nodup_append.mp hnodup with ⟨_, _, hdisj⟩
      intro hmem
      exact hdisj hmem (by simp)
    rw [add_to_groups_new_key _ _ m hknotin]
    refine ih (m ++ [(pyLower c.name, [c.id])]) ?_ ?_
    · have : (m.map Prod.fst ++ [pyLower c.name]) ++
          rest.map (fun c2 => pyLower c2.name) =
          m.map Prod.fst ++ (c :: rest).map (fun c2 => pyLower c2.name) := by
        simp
      rw [List.map_append]
      simpa [this] using hnodup
    · intro g hg
      rcases List.mem_append.mp hg with hg | hg
      · exact hm g hg
      · rcases List.mem_singleton.mp hg with rfl
        rfl

/-- Claim C4 (amended): on a document where every book's character
references resolve to existing master characters and all master-character
names are distinct after lower-casing, `continuity_check` produces no
issues.  (With names that differ only in case the scan does flag them —
see the counterexample.) -/
theorem C4_continuity_check_clean (d : Doc)
    (hrefs : ∀ b ∈ d.books, ∀ cid ∈ b.characters,
      cid ∈ d.master.characters.map MChar.id)
    (hnames : (d.master.characters.map (fun c => pyLower c.name)).Nodup) :
    continuity_check d = [] := by
  unfold continuity_check
  have hmissing : missing_ref_issues d = [] := by
    unfold missing_ref_issues
    rw [List.flatten_eq_nil_iff]
    intro x hx
    rcases List.mem_map.mp hx with ⟨b, hb, rfl⟩
    rw [List.map_eq_nil_iff, List.filter_eq_nil_iff]
    intro cid hcid
    simp [List.contains, List.elem_iff, hrefs b hb cid hcid]
  have hdup : dup_name_issues d = [] := by
    unfold dup_name_issues
    rw [List.filterMap_eq_nil_iff]
    intro g hg
    have h1 : g.2.length = 1 := by
      refine groups_singleton d.master.characters [] (by simpa using hnames)
        (by intro g2 hg2; cases hg2) g ?_
      exact hg
    simp [h1]
  rw [hmissing, hdup]
  rfl

def c4Rex1 : MChar := ⟨"char_1_10", "Rex", "", "", "", "", "", "t"⟩

def c4Rex2 : MChar := ⟨"char_2_11", "rex", "", "", "", "", "", "t"⟩

def c4Doc : Doc :=
  { meta := ⟨"t0"⟩, series := none, books := [],
    master := ⟨[c4Rex1, c4Rex2], [], []⟩, timeline := [] }

/-- Claim C4, counterexample: a document whose master-character names are
all distinct as strings ("Rex" vs "rex") and with no book references at
all still yields a non-empty issue list — the scan groups names after
lower-casing, so names that are unique but differ only in case are
flagged. -/
theorem C4_counterexample :
    (c4Doc.master.characters.map MChar.name).Nodup ∧
    (∀ b ∈ c4Doc.books, ∀ cid ∈ b.characters,
      cid ∈ c4Doc.master.characters.map MChar.id) ∧
    continuity_check c4Doc ≠ [] := by
  refine ⟨by decide, by decide, by decide⟩

def c4CleanBook : Book :=
  { id := "book_1_60", title := "The Start", number := some 1, logline := "",
    planned_length := none, plot_outline := [],
    characters := ["char_1_10", "char_2_11"],
    book_char_profiles := [("char_1_10", ⟨"", ""⟩), ("char_2_11", ⟨"", ""⟩)],
    timeline := [], themes := [], created_at := "t2" }

def c4CleanDoc : Doc :=
  { meta := ⟨"t0"⟩, series := none, books := [c4CleanBook],
    master := ⟨[⟨"char_1_10", "Ava", "", "", "", "", "", "t"⟩,
      ⟨"char_2_11", "Kade", "", "", "", "", "", "t"⟩], [], []⟩, timeline := [] }

/-- Claim C4, witness: a two-character document whose one book references
both characters; all references resolve and the lower-cased names are
distinct, and the scan reports no issues. -/
theorem C4_witness :
    (∀ b ∈ c4CleanDoc.books, ∀ cid ∈ b.characters,
      cid ∈ c4CleanDoc.master.characters.map MChar.id) ∧
    (c4CleanDoc.master.characters.map (fun c => pyLower c.name)).Nodup ∧
    continuity_check c4CleanDoc = [] :=
  ⟨by decide, by decide, C4_continuity_check_clean c4CleanDoc (by decide) (by decide)⟩

/-! ## Claim C5 -/

def c5Book : Book :=
  { id := "book_1_70", title := "T", number := some 7, logline := "L",
    planned_length := none, plot_outline := [], characters := [],
    book_char_profiles := [], timeline := [], themes := [], created_at := "t" }

/-- Claim C5, counterexample: the input `-5` parses as the integer `-5`
(so the claim says it replaces the previous number), but the code gates
replacement on `str.isdigit`, which rejects a sign — the previous number
7 is kept. -/
theorem C5_counterexample :
    pyIntParse? "-5" = some (-5) ∧
    (edit_book_basic_info c5Book "" "-5" "").number = some 7 ∧
    some (7 : Int) ≠ some (-5 : Int) := by
  refine ⟨by decide, by decide, by decide⟩

/-- Claim C5 (amended): title and logline keep the previous value exactly
on empty input and are replaced by any non-empty input; the number keeps
the previous value unless the input is a nonempty string of decimal
digits (Python `str.isdigit`), in which case the parsed (necessarily
nonnegative) value replaces it.  Signed or otherwise decorated integer
inputs do not replace the number. -/
theorem C5_edit_basic_info_semantics (b : Book) (t n l : String) :
    ((t = "" → (edit_book_basic_info b t n l).title = b.title) ∧
     (t ≠ "" → (edit_book_basic_info b t n l).title = t)) ∧
    ((pyIsDigit n = true →
        (edit_book_basic_info b t n l).number = some (pyDigitsVal n : Int)) ∧
     (pyIsDigit n = false → (edit_book_basic_info b t n l).number = b.number)) ∧
    ((l = "" → (edit_book_basic_info b t n l).logline = b.logline) ∧
     (l ≠ "" → (edit_book_basic_info b t n l).logline = l)) := by
  unfold edit_book_basic_info
  refine ⟨⟨?_, ?_⟩, ⟨?_, ?_⟩, ⟨?_, ?_⟩⟩ <;> intro h <;> simp [h]

/-! ## Claim C6 -/

def c6Doc : Doc :=
  { meta := ⟨"t0"⟩, series := none, books := [],
    master := ⟨[⟨"char_1_1", "Ava", "", "", "", "", "", "t"⟩,
      ⟨"char_2_2", "Ava", "", "", "", "", "", "t"⟩], [], []⟩, timeline := [] }

def c6Query : String := "What conflict could arise between Ava and the council"

/-- Claim C6, counterexample: with two master characters both named
"Ava", only one distinct name occurs in the query, so the claim says the
couldn't-identify message is emitted; the code counts master entries, not
distinct names, and emits the conflict template "between Ava and Ava". -/
theorem C6_counterexample :
    ((c6Doc.master.characters.map MChar.name).filter
      (fun nm => pyIn (pyLower nm) (pyLower (pyStrip c6Query)))).dedup.length < 2 ∧
    oracles_advice c6Doc c6Query = conflictLines "Ava" "Ava" ∧
    conflictLines "Ava" "Ava" ≠ couldntIdentifyLines := by
  refine ⟨by decide, by decide, by decide⟩

/-- Claim C6 (amended): for a non-empty query containing both "conflict"
and "between" (case-insensitively), if at least two master-character
entries (counted with multiplicity — the two names found need not be
distinct) have names occurring case-insensitively in the query, the
response is the conflict template parameterized by the first two such
entries' names in master-collection order; with fewer than two matching
entries it is the fixed couldn't-identify message. -/
theorem C6_conflict_branch (d : Doc) (input : String)
    (hq : pyStrip input ≠ "")
    (hconf : pyIn "conflict" (pyLower (pyStrip input)) = true)
    (hbetw : pyIn "between" (pyLower (pyStrip input)) = true) :
    (∀ a b rest, mentioned_names d (pyLower (pyStrip input)) = a :: b :: rest →
      oracles_advice d input = conflictLines a b) ∧
    ((mentioned_names d (pyLower (pyStrip input))).length < 2 →
      oracles_advice d input = couldntIdentifyLines) := by
  have hadv : oracles_advice d input =
      match mentioned_names d (pyLower (pyStrip input)) with
      | a :: b :: _ => conflictLines a b
      | _ => couldntIdentifyLines := by
    unfold oracles_advice
    rw [if_neg hq]
    simp only [hconf, hbetw, Bool.and_self, if_pos]
  constructor
  · intro a b rest heq
    rw [hadv, heq]
  · intro hlen
    rcases hm : mentioned_names d (pyLower (pyStrip input)) with _ | ⟨x, _ | ⟨y, ys⟩⟩
    · rw [hadv, hm]
    · rw [hadv, hm]
    · rw [hm] at hlen
      simp only [List.length_cons] at hlen
      omega

def c6WDoc : Doc :=
  { meta := ⟨"t0"⟩, series := none, books := [],
    master := ⟨[⟨"char_1_1", "Ava", "", "", "", "", "", "t"⟩,
      ⟨"char_2_2", "Kade", "", "", "", "", "", "t"⟩], [], []⟩, timeline := [] }

def c6WQuery : String := "What conflicts could arise between Ava and Kade?"

/-- Claim C6, witness: the spec's own scenario — Ava created before Kade,
query naming both; the response is the conflict template with Ava first
and Kade second. -/
theorem C6_witness :
    pyStrip c6WQuery ≠ "" ∧
    pyIn "conflict" (pyLower (pyStrip c6WQuery)) = true ∧
    pyIn "between" (pyLower (pyStrip c6WQuery)) = true ∧
    mentioned_names c6WDoc (pyLower (pyStrip c6WQuery)) = ["Ava", "Kade"] ∧
    oracles_advice c6WDoc c6WQuery = conflictLines "Ava" "Kade" :=
  ⟨by decide, by decide, by decide, by decide,
    (C6_conflict_branch c6WDoc c6WQuery (by decide) (by decide) (by decide)).1
      "Ava" "Kade" [] (by decide)⟩

/-! ## Claim C7 -/

/-- Claim C7: `analyze_personality_text` is a pure function (its output
is determined by its input — purity holds by construction in the
embedding, since the source reads no state and uses no randomness), and
any input containing "organized" yields an output containing the
conscientiousness sentence, whatever else the input contains. -/
theorem C7_analyze_pure_and_organized :
    (∀ s t : String, s = t →
      analyze_personality_text s = analyze_personality_text t) ∧
    (∀ t : String, pyIn "organized" t = true →
      pyIn conscientiousnessSentence (analyze_personality_text t) = true) := by
  constructor
  · intro s t h
    rw [h]
  · intro t ht
    have hlow : pyIn "organized" (pyLower t) = true :=
      pyIn_map_lower ht (by decide)
    unfold analyze_personality_text
    simp only [hlow, Bool.or_true, Bool.true_or]
    rw [if_neg (by simp)]
    exact pyIn_of_mem_pyJoin " " _ _ (by simp)

/-! ## Claim C10 -/

/-- Claim C10: "agreeable" is a substring of "not agreeable" and the
keyword sets are tested independently, so any input whose lower-casing
contains "not agreeable" triggers both the high-agreeableness and the
low-agreeableness sentences, and the output contains both. -/
theorem C10_not_agreeable_both_sentences (t : String)
    (h : pyIn "not agreeable" (pyLower t) = true) :
    pyIn highAgreeablenessSentence (analyze_personality_text t) = true ∧
    pyIn lowAgreeablenessSentence (analyze_personality_text t) = true := by
  have hagree : pyIn "agreeable" (pyLower t) = true :=
    pyIn_trans (by decide) h
  unfold analyze_personality_text
  simp only [hagree, h, Bool.or_true, Bool.true_or]
  rw [if_neg (by simp)]
  constructor
  · exact pyIn_of_mem_pyJoin " " _ _ (by simp)
  · exact pyIn_of_mem_pyJoin " " _ _ (by simp)

def c10Text : String := "He is not agreeable at all"

/-- Claim C10, witness: a concrete input containing "not agreeable" whose
analysis contains both agreeableness sentences. -/
theorem C10_witness :
    pyIn "not agreeable" (pyLower c10Text) = true ∧
    pyIn highAgreeablenessSentence (analyze_personality_text c10Text) = true ∧
    pyIn lowAgreeablenessSentence (analyze_personality_text c10Text) = true :=
  ⟨by decide, (C10_not_agreeable_both_sentences c10Text (by decide)).1,
    (C10_not_agreeable_both_sentences c10Text (by decide)).2⟩

/-! ## Claim C9 -/

/-- The total count recorded for key `k` in a tally list (0 when the key
is absent; the entry's value when keys are unique). -/
def keyVal (k : String) (m : List (String × Nat)) : Nat :=
  ((m.filter (fun kn => kn.1 == k)).map Prod.snd).sum

theorem keyVal_nil (k : String) : keyVal k [] = 0 := rfl

theorem bump_keys (k : String) : ∀ m : List (String × Nat),
    (bump_count k m).map Prod.fst =
      if k ∈ m.map Prod.fst then m.map Prod.fst else m.map Prod.fst ++ [k] := by
  intro m
  induction m with
  | nil => simp [bump_count]
  | cons g rest ih =>
    obtain ⟨k2, n⟩ := g
    by_cases hk : k = k2
    · subst hk
      simp [bump_count]
    · simp only [bump_count, if_neg hk, List.map_cons, ih]
      by_cases hmem : k ∈ rest.map Prod.fst
      · rw [if_pos hmem, if_pos (by simp [hmem])]
      · rw [if_neg hmem, if_neg (by simp [List.mem_cons, hk, hmem])]
        simp

theorem bump_val_self (k : String) : ∀ m : List (String × Nat),
    keyVal k (bump_count k m) = keyVal k m + 1 := by
  intro m
  induction m with
  | nil => simp [bump_count, keyVal]
  | cons g rest ih =>
    obtain ⟨k2, n⟩ := g
    by_cases hk : k = k2
    · subst hk
      simp [bump_count, keyVal]
      omega
    · have hne : (k2 == k) = false := by
        simp [Ne.symm hk]
      simp only [bump_count, if_neg hk]
      simp only [keyVal, List.filter_cons, hne, ite_false, Bool.false_eq_true]
      exact ih

theorem bump_val_other (k k3 : String) (hne : k3 ≠ k) : ∀ m : List (String × Nat),
    keyVal k3 (bump_count k m) = keyVal k3 m := by
  intro m
  have hkf : (k == k3) = false := by simp [Ne.symm hne]
  induction m with
  | nil => simp [bump_count, keyVal, hkf]
  | cons g rest ih =>
    obtain ⟨k2, n⟩ := g
    by_cases hk : k = k2
    · subst hk
      simp [bump_count, keyVal, hkf]
    · simp only [bump_count, if_neg hk]
      by_cases hk2 : k2 = k3
      · subst hk2
        simp only [keyVal, List.filter_cons, beq_self_eq_true, if_true, List.map_cons,
          List.sum_cons]
        have := ih
        simp only [keyVal] at this
        omega
      · have : (k2 == k3) = false := by simp [hk2]
        simp only [keyVal, List.filter_cons, this, Bool.false_eq_true, ite_false]
        exact ih

/-- `tally_themes` as a single left fold over the flattened, lower-cased
theme list. -/
def tally_list (ts : List String) (m : List (String × Nat)) : List (String × Nat) :=
  ts.foldl (fun m2 t => bump_count t m2) m

theorem tally_themes_eq_tally_list : ∀ (books : List Book) (m : List (String × Nat)),
    books.foldl (fun m2 b => b.themes.foldl (fun m3 t => bump_count (pyLower t) m3) m2) m =
      tally_list (((books.map Book.themes).flatten).map pyLower) m := by
  intro books
  induction books with
  | nil => intro m; rfl
  | cons b rest ih =>
    intro m
    simp only [List.foldl_cons, List.map_cons, List.flatten_cons, List.map_append]
    rw [ih]
    unfold tally_list
    rw [List.foldl_append]
    congr 1
    exact (List.foldl_map pyLower (fun m2 t => bump_count t m2) b.themes m).symm

theorem tally_list_keys_nodup : ∀ (ts : List String) (m : List (String × Nat)),
    (m.map Prod.fst).Nodup → ((tally_list ts m).map Prod.fst).Nodup := by
  intro ts
  induction ts with
  | nil => intro m h; exact h
  | cons t rest ih =>
    intro m h
    refine ih (bump_count t m) ?_
    rw [bump_keys]
    by_cases hmem : t ∈ m.map Prod.fst
    · rw [if_pos hmem]; exact h
    · rw [if_neg hmem]
      refine List.nodup_append.mpr ⟨h, List.nodup_singleton t, ?_⟩
      intro a ha hb
      rcases List.mem_singleton.mp hb with rfl
      exact hmem ha

theorem tally_list_val : ∀ (ts : List String) (m : List (String × Nat)) (k : String),
    keyVal k (tally_list ts m) = keyVal k m + ts.count k := by
  intro ts
  induction ts with
  | nil => intro m k; simp [tally_list]
  | cons t rest ih =>
    intro m k
    have hstep : tally_list (t :: rest) m = tally_list rest (bump_count t m) := rfl
    rw [hstep, ih]
    by_cases hk : k = t
    · subst hk
      rw [bump_val_self]
      simp [List.count_cons]
      omega
    · rw [bump_val_other t k hk]
      have : (t == k) = false := by simp [Ne.symm hk]
      simp [List.count_cons, this]

theorem tally_list_keys_mem : ∀ (ts : List String) (m : List (String × Nat)) (k : String),
    k ∈ (tally_list ts m).map Prod.fst ↔ k ∈ m.map Prod.fst ∨ k ∈ ts := by
  intro ts
  induction ts with
  | nil => intro m k; simp [tally_list]
  | cons t rest ih =>
    intro m k
    have hstep : tally_list (t :: rest) m = tally_list rest (bump_count t m) := rfl
    rw [hstep, ih, bump_keys]
    by_cases hmem : t ∈ m.map Prod.fst
    · rw [if_pos hmem]
      constructor
      · rintro (h | h)
        · exact Or.inl h
        · exact Or.inr (List.mem_cons_of_mem t h)
      · rintro (h | h)
        · exact Or.inl h
        · rcases List.mem_cons.mp h with rfl | h
          · exact Or.inl hmem
          · exact Or.inr h
    · rw [if_neg hmem]
      simp only [List.mem_append, List.mem_singleton, List.mem_cons]
      tauto

theorem mem_tally_val : ∀ (m : List (String × Nat)), (m.map Prod.fst).Nodup →
    ∀ kn ∈ m, kn.2 = keyVal kn.1 m := by
  intro m
  induction m with
  | nil => intro _ kn hkn; cases hkn
  | cons g rest ih =>
    intro hnodup kn hkn
    obtain ⟨k2, n⟩ := g
    have hhead : k2 ∉ rest.map Prod.fst := by
      simp only [List.map_cons, List.nodup_cons] at hnodup
      exact hnodup.1
    have hrest : (rest.map Prod.fst).Nodup := by
      simp only [List.map_cons, List.nodup_cons] at hnodup
      exact hnodup.2
    rcases List.mem_cons.mp hkn with rfl | hm
    · simp only [keyVal, List.filter_cons, beq_self_eq_true, if_true, List.map_cons,
        List.sum_cons]
      have habs : keyVal k2 rest = 0 := by
        unfold keyVal
        have : rest.filter (fun kn2 => kn2.1 == k2) = [] := by
          rw [List.filter_eq_nil_iff]
          intro a ha
          simp only [bne_iff_ne, beq_iff_eq]
          intro hak
          exact hhead (hak ▸ List.mem_map_of_mem Prod.fst ha)
        rw [this]
        rfl
      simp only [keyVal] at habs
      omega
    · have hne : kn.1 ≠ k2 := by
        intro h
        exact hhead (h ▸ List.mem_map_of_mem Prod.fst hm)
      have : (k2 == kn.1) = false := by simp [Ne.symm hne]
      simp only [keyVal, List.filter_cons, this, Bool.false_eq_true, ite_false]
      exact ih hrest kn hm

/-- The flattened, lower-cased list of all theme tags across books. -/
def all_lowered_themes (d : Doc) : List String :=
  ((d.books.map Book.themes).flatten).map pyLower

theorem tally_themes_spec (d : Doc) :
    tally_themes d.books = tally_list (all_lowered_themes d) [] := by
  unfold tally_themes all_lowered_themes
  exact tally_themes_eq_tally_list d.books []

/-- Claim C9: `thematic_cohesion` reports "no themes recorded" exactly
when no book carries any theme tag; otherwise the themes it flags as
under-represented are exactly the distinct lower-cased themes whose
occurrence count across books is strictly below half the book count
(denominator `max 1 (number of books)`; `cnt < total/2` is `2*cnt <
total` in exact arithmetic). -/
theorem C9_thematic_cohesion_flags (d : Doc) :
    (thematic_cohesion d = .noThemes ↔ ∀ b ∈ d.books, b.themes = []) ∧
    (under_represented d).Nodup ∧
    (∀ s, s ∈ under_represented d ↔
      s ∈ all_lowered_themes d ∧
      2 * (all_lowered_themes d).count s < max 1 d.books.length) := by
  have hT : tally_themes d.books = tally_list (all_lowered_themes d) [] :=
    tally_themes_spec d
  have hkeys : ∀ k, k ∈ (tally_list (all_lowered_themes d) []).map Prod.fst ↔
      k ∈ all_lowered_themes d := by
    intro k
    rw [tally_list_keys_mem]
    simp
  have hnodupkeys : ((tally_list (all_lowered_themes d) []).map Prod.fst).Nodup :=
    tally_list_keys_nodup (all_lowered_themes d) [] (by simp)
  have hval : ∀ k, keyVal k (tally_list (all_lowered_themes d) []) =
      (all_lowered_themes d).count k := by
    intro k
    rw [tally_list_val]
    simp [keyVal_nil]
  have hempty_iff : all_lowered_themes d = [] ↔ ∀ b ∈ d.books, b.themes = [] := by
    simp [all_lowered_themes, List.map_eq_nil_iff, List.flatten_eq_nil_iff]
  have hTnil : tally_list (all_lowered_themes d) [] = [] ↔
      all_lowered_themes d = [] := by
    constructor
    · intro h
      by_contra hL
      obtain ⟨x, hx⟩ := List.exists_mem_of_ne_nil _ hL
      have := (hkeys x).mpr hx
      rw [h] at this
      simp at this
    · intro h
      rw [h]
      rfl
  by_cases hc : tally_themes d.books = []
  · have hLnil : all_lowered_themes d = [] := hTnil.mp (hT ▸ hc)
    have hnt : thematic_cohesion d = .noThemes := by
      unfold thematic_cohesion
      simp [hc]
    have hur : under_represented d = [] := by
      unfold under_represented
      rw [hnt]
    refine ⟨?_, by simp [hur], ?_⟩
    · simp only [hnt, true_iff]
      exact hempty_iff.mp hLnil
    · intro s
      simp [hur, hLnil]
  · have hrep : thematic_cohesion d = .report (tally_themes d.books)
        (((tally_themes d.books).filter
          (fun tc => 2 * tc.2 < max 1 d.books.length)).map Prod.fst) := by
      unfold thematic_cohesion
      simp [hc]
    have hur : under_represented d = ((tally_list (all_lowered_themes d) []).filter
        (fun tc => 2 * tc.2 < max 1 d.books.length)).map Prod.fst := by
      unfold under_represented
      rw [hrep, ← hT]
    refine ⟨?_, ?_, ?_⟩
    · rw [hrep]
      constructor
      · intro h
        cases h
      · intro h
        exact absurd (hT ▸ hTnil.mpr (hempty_iff.mpr h)) hc
    · rw [hur]
      exact hnodupkeys.sublist (List.Sublist.map _ (List.filter_sublist _))
    · intro s
      rw [hur]
      constructor
      · intro hs
        rcases List.mem_map.mp hs with ⟨tc, htc, rfl⟩
        rcases List.mem_filter.mp htc with ⟨hmem, hcond⟩
        have hv : tc.2 = (all_lowered_themes d).count tc.1 := by
          rw [mem_tally_val _ hnodupkeys tc hmem]
          exact hval tc.1
        refine ⟨(hkeys tc.1).mp (List.mem_map_of_mem Prod.fst hmem), ?_⟩
        rw [← hv]
        simpa using hcond
      · rintro ⟨hsL, hcount⟩
        have hsk := (hkeys s).mpr hsL
        rcases List.mem_map.mp hsk with ⟨tc, htc, rfl⟩
        have hv : tc.2 = (all_lowered_themes d).count tc.1 := by
          rw [mem_tally_val _ hnodupkeys tc htc]
          exact hval tc.1
        refine List.mem_map_of_mem Prod.fst (List.mem_filter.mpr ⟨htc, ?_⟩)
        simp only [decide_eq_true_eq]
        omega

/-- A bare book carrying only a title and a theme list, for the scenario
check below. -/
def themedBook (i : String) (th : List String) : Book :=
  { id := i, title := i, number := none, logline := "", planned_length := none,
    plot_outline := [], characters := [], book_char_profiles := [], timeline := [],
    themes := th, created_at := "t" }

def fourBookDoc : Doc :=
  { meta := ⟨"t0"⟩, series := none,
    books := [themedBook "b1" ["Betrayal", "hope"], themedBook "b2" ["hope"],
      themedBook "b3" ["hope"], themedBook "b4" ["hope"]],
    master := ⟨[], [], []⟩, timeline := [] }

/-- The spec's scenario for thematic cohesion: with 4 books and the theme
"betrayal" appearing in exactly one of them, "betrayal" is flagged as
under-represented (1 < 4/2) while "hope" (in all four) is not. -/
theorem thematic_scenario_four_books :
    under_represented fourBookDoc = ["betrayal"] := by decide

/-! ## Claim C8 -/

theorem decList_map {α : Type} (enc : α → JValue) (dec : JValue → Option α)
    (h : ∀ a, dec (enc a) = some a) : ∀ l : List α, decList dec (l.map enc) = some l := by
  intro l
  induction l with
  | nil => rfl
  | cons a as ih => simp [List.map_cons, decList, h a, ih]

theorem profile_rt (p : BookProfile) : profileFromJson (profileToJson p) = some p := by
  obtain ⟨r, n⟩ := p
  rfl

theorem profMap_rt : ∀ ps : List (String × BookProfile),
    profMapFromJson (ps.map (fun kv => (kv.1, profileToJson kv.2))) = some ps := by
  intro ps
  induction ps with
  | nil => rfl
  | cons kv rest ih =>
    obtain ⟨k, p⟩ := kv
    simp [List.map_cons, profMapFromJson, profile_rt, ih]

theorem bookEvent_rt (e : BookEvent) : bookEventFromJson (bookEventToJson e) = some e := by
  obtain ⟨w, dsc⟩ := e
  rfl

theorem mchar_rt (c : MChar) : mcharFromJson (mcharToJson c) = some c := by
  obtain ⟨a, b, c2, d2, e, f, g, h⟩ := c
  rfl

theorem mloc_rt (l : MLoc) : mlocFromJson (mlocToJson l) = some l := by
  obtain ⟨a, b, c, d2, e⟩ := l
  rfl

theorem mlore_rt (l : MLore) : mloreFromJson (mloreToJson l) = some l := by
  obtain ⟨a, b, c, d2⟩ := l
  rfl

theorem mevent_rt (e : MEvent) : meventFromJson (meventToJson e) = some e := by
  obtain ⟨w, dsc, bi⟩ := e
  cases bi <;> rfl

theorem series_rt (s : SeriesInfo) : seriesFromJson (seriesToJson s) = some s := by
  obtain ⟨a, b, c, pb, e, f, g⟩ := s
  cases pb <;> rfl

theorem optSeries_rt (o : Option SeriesInfo) :
    optSeriesFromJson (optSeriesToJson o) = some o := by
  cases o with
  | none => rfl
  | some s =>
    obtain ⟨a, b, c, pb, e, f, g⟩ := s
    cases pb <;> rfl

theorem bookFromJson_obj (i t : String) (nb : JValue) (l : String) (pl : JValue)
    (po cs : List JValue) (ps : List (String × JValue)) (tl th : List JValue)
    (ca : String) :
    bookFromJson (.obj [("id", .str i), ("title", .str t), ("number", nb),
      ("logline", .str l), ("planned_length", pl), ("plot_outline", .arr po),
      ("characters", .arr cs), ("book_char_profiles", .obj ps), ("timeline", .arr tl),
      ("themes", .arr th), ("created_at", .str ca)]) =
      bookOfParts i t nb l pl po cs ps tl th ca := rfl

theorem book_rt (b : Book) : bookFromJson (bookToJson b) = some b := by
  obtain ⟨i, t, nb, l, pl, po, cs, ps, tl, th, ca⟩ := b
  rw [bookToJson]
  rw [bookFromJson_obj]
  unfold bookOfParts
  rw [decList_map JValue.str strFromJson (fun s => rfl),
    decList_map JValue.str strFromJson (fun s => rfl),
    decList_map JValue.str strFromJson (fun s => rfl),
    decList_map bookEventToJson bookEventFromJson bookEvent_rt, profMap_rt]
  cases nb <;> cases pl <;> rfl

theorem docFromJson_obj (ca : String) (sj : JValue) (bs cs ls lo tl : List JValue) :
    docFromJson (.obj [("meta", .obj [("created_at", .str ca)]), ("series", sj),
      ("books", .arr bs), ("master", .obj [("characters", .arr cs),
        ("locations", .arr ls), ("lore", .arr lo)]), ("timeline", .arr tl)]) =
      docOfParts ca sj bs cs ls lo tl := rfl

/-- Claim C8: saving a document and loading it back yields the same
document — reading the JSON tree `save_data` writes reconstructs the
document exactly, for every document of the data model. -/
theorem C8_save_load_roundtrip (d : Doc) : docFromJson (docToJson d) = some d := by
  obtain ⟨⟨ca⟩, series, books, ⟨cs, ls, lo⟩, tl⟩ := d
  rw [docToJson]
  rw [docFromJson_obj]
  unfold docOfParts
  rw [optSeries_rt, decList_map bookToJson bookFromJson book_rt,
    decList_map mcharToJson mcharFromJson mchar_rt,
    decList_map mlocToJson mlocFromJson mloc_rt,
    decList_map mloreToJson mloreFromJson mlore_rt,
    decList_map meventToJson meventFromJson mevent_rt]

end SeriesCodex
